import Mathlib

/-
Shallow embedding of the execution core and interrupt subsystem of the
marhel/rust-intro repository (src/example.rs and src/lib.rs).

Conventions of the embedding:
- Machine integers (u8, u16, u32, usize) are modelled as Nat; wrapping
  arithmetic is made explicit with `% 2 ^ w` exactly where the source
  wraps (u8 multiplication in handle_exception, u32 wrapping_add in
  read_imm_u16).  i32 cycle counts are modelled as Int.
- Mutation of `&mut self` becomes explicit state passing: a method that
  mutates the receiver returns the new receiver alongside its result.
- The Rust dispatch table `ophandlers` is a field of `Core` holding
  function pointers `fn(&mut Core) -> Result<Cycles>`.  A Lean structure
  cannot store functions over itself (negative occurrence), so the table
  is passed as an explicit parameter to the execution loop; it is
  read-only during execution.
- The `while` loop of `execute` is modelled with an explicit fuel
  parameter; `none` means the fuel was exhausted before the loop exited.
- A Rust panic (Vec::pop().unwrap() on an empty vector, a failed
  assert!) is modelled as `none` of an `Option` result.
-/

set_option linter.unusedVariables false
set_option maxRecDepth 4096

namespace M68k

/-! Embedding of src/example.rs -/

inductive ProcessingState where
  | Normal
  | Group2Exception
  | Group1Exception
  | Group0Exception
  | Stopped
  | Halted
deriving DecidableEq

def ProcessingState.instruction_processing : ProcessingState → Bool
  | ProcessingState.Normal => true
  | ProcessingState.Group2Exception => true
  | _ => false

def ProcessingState.running : ProcessingState → Bool
  | ProcessingState.Stopped => false
  | ProcessingState.Halted => false
  | _ => true

inductive Mode where
  | User
  | Supervisor
deriving DecidableEq

inductive Segment where
  | Program
  | Data
deriving DecidableEq

structure AddressSpace where
  mode : Mode
  segment : Segment
deriving DecidableEq

def SUPERVISOR_PROGRAM : AddressSpace := ⟨Mode.Supervisor, Segment.Program⟩

def SUPERVISOR_DATA : AddressSpace := ⟨Mode.Supervisor, Segment.Data⟩

def USER_PROGRAM : AddressSpace := ⟨Mode.User, Segment.Program⟩

def USER_DATA : AddressSpace := ⟨Mode.User, Segment.Data⟩

inductive AccessType where
  | Read
  | Write
deriving DecidableEq

inductive Exception where
  | AddressError (address : Nat) (access_type : AccessType)
      (processing_state : ProcessingState) (address_space : AddressSpace)
  | IllegalInstruction (ir : Nat) (pc : Nat)
  | Trap (num : Nat) (cycles : Int)
  | PrivilegeViolation (ir : Nat) (pc : Nat)
  | UnimplementedInstruction (ir : Nat) (pc : Nat) (vector : Nat)
deriving DecidableEq

def EXCEPTION_ADDRESS_ERROR : Nat := 3

def EXCEPTION_ILLEGAL_INSTRUCTION : Nat := 4

def EXCEPTION_ZERO_DIVIDE : Nat := 5

def EXCEPTION_CHK : Nat := 6

def EXCEPTION_TRAPV : Nat := 7

def EXCEPTION_PRIVILEGE_VIOLATION : Nat := 8

/-- The newtype Cycles(i32); its arithmetic is ordinary Int arithmetic. -/
abbrev Cycles := Int

/-- `Cycles::any`: strictly positive. -/
def Cycles.any (c : Cycles) : Bool := decide (0 < c)

structure Core where
  ir : Nat
  pc : Nat
  s_flag : Nat
  processing_state : ProcessingState
deriving DecidableEq

/-- `Handler = fn(&mut Core) -> Result<Cycles>`. -/
abbrev Handler := Core → Core × Except Exception Cycles

/-- The dispatch table, indexed by the fetched opcode. -/
abbrev InstructionSet := Nat → Handler

/-- `read_word` — "totally fake": returns the address as u16. -/
def Core.read_word (c : Core) (space : AddressSpace) (address : Nat) : Nat :=
  address % 2 ^ 16

def Core.read_imm_u16 (c : Core) : Except Exception Nat × Core :=
  let address_space := if c.s_flag ≠ 0 then SUPERVISOR_PROGRAM else USER_PROGRAM
  if c.pc &&& 1 > 0 then
    (Except.error (Exception.AddressError c.pc AccessType.Read c.processing_state address_space), c)
  else
    let memory_content := c.read_word address_space c.pc
    (Except.ok memory_content, { c with pc := (c.pc + 2) % 2 ^ 32 })

/-- `handle_exception`.  The source computes `(vector * 4) as u32` where
`vector : u8`, so the multiplication wraps at 256 before the cast. -/
def Core.handle_exception (c : Core) (new_state : ProcessingState) (pc : Nat)
    (vector : Nat) (cycles : Int) : Core × Cycles :=
  ({ c with processing_state := new_state, pc := vector * 4 % 2 ^ 8 }, cycles)

def Core.handle_address_error (c : Core) (bad_address : Nat) (access_type : AccessType)
    (processing_state : ProcessingState) (address_space : AddressSpace) : Core × Cycles :=
  c.handle_exception ProcessingState.Group1Exception bad_address EXCEPTION_ADDRESS_ERROR 50

def Core.handle_unimplemented_instruction (c : Core) (pc : Nat) (vector : Nat) : Core × Cycles :=
  c.handle_exception ProcessingState.Group2Exception pc vector 34

def Core.handle_illegal_instruction (c : Core) (pc : Nat) : Core × Cycles :=
  c.handle_exception ProcessingState.Group1Exception pc EXCEPTION_ILLEGAL_INSTRUCTION 34

def Core.handle_privilege_violation (c : Core) (pc : Nat) : Core × Cycles :=
  c.handle_exception ProcessingState.Group1Exception pc EXCEPTION_PRIVILEGE_VIOLATION 34

def Core.handle_trap (c : Core) (trap : Nat) (cycles : Int) : Core × Cycles :=
  c.handle_exception ProcessingState.Group2Exception c.pc trap cycles

/-- The match on the exception value inside `execute`. -/
def Core.handle_err (c : Core) (err : Exception) : Core × Cycles :=
  match err with
  | Exception.AddressError address access_type processing_state address_space =>
      c.handle_address_error address access_type processing_state address_space
  | Exception.IllegalInstruction _ pc => c.handle_illegal_instruction pc
  | Exception.UnimplementedInstruction _ pc vector => c.handle_unimplemented_instruction pc vector
  | Exception.Trap num ea_calculation_cycles => c.handle_trap num ea_calculation_cycles
  | Exception.PrivilegeViolation _ pc => c.handle_privilege_violation pc

/-- One iteration of the body of the `while` loop in `execute`: fetch,
dispatch, route failures through the exception processor.  Returns the
mutated core and the cycle count subtracted from the remaining budget. -/
def Core.execStep (oph : InstructionSet) (c : Core) : Core × Cycles :=
  match c.read_imm_u16 with
  | (Except.ok opcode, c1) =>
      match oph opcode { c1 with ir := opcode } with
      | (c2, Except.ok cycles_used) => (c2, cycles_used)
      | (c2, Except.error err) => c2.handle_err err
  | (Except.error err, c1) => c1.handle_err err

/-- The raw fetch-and-dispatch result of one iteration (the value the
source binds to `result`), before exception routing. -/
def Core.execStepRes (oph : InstructionSet) (c : Core) : Except Exception Cycles :=
  match c.read_imm_u16 with
  | (Except.ok opcode, c1) => (oph opcode { c1 with ir := opcode }).2
  | (Except.error err, _) => Except.error err

/-- The `while remaining_cycles.any() && running()` loop of `execute`,
with fuel.  On exit it yields the final core and the remaining cycles. -/
def Core.execLoop (oph : InstructionSet) : Nat → Core → Cycles → Option (Core × Cycles)
  | 0, _, _ => none
  | fuel + 1, c, remaining_cycles =>
    if Cycles.any remaining_cycles && c.processing_state.running then
      let s := Core.execStep oph c
      Core.execLoop oph fuel s.1 (remaining_cycles - s.2)
    else
      some (c, remaining_cycles)

def Core.execute (oph : InstructionSet) (fuel : Nat) (c : Core) (cycles : Int) :
    Option (Core × Cycles) :=
  match Core.execLoop oph fuel c cycles with
  | none => none
  | some (c1, remaining_cycles) =>
      some (c1,
        if c1.processing_state.running then cycles - remaining_cycles
        else cycles - (if remaining_cycles < 0 then remaining_cycles else 0))

/-- Ghost trace of a run: for each iteration, the fetch-and-dispatch
result and the processing state after the full step. -/
abbrev Trace := List (Except Exception Cycles × ProcessingState)

/-- The loop of `execute` instrumented with a ghost trace; it performs
exactly the steps of `Core.execLoop`. -/
def Core.execLoopT (oph : InstructionSet) : Nat → Core → Cycles → Option (Core × Cycles × Trace)
  | 0, _, _ => none
  | fuel + 1, c, remaining_cycles =>
    if Cycles.any remaining_cycles && c.processing_state.running then
      match Core.execLoopT oph fuel (Core.execStep oph c).1
          (remaining_cycles - (Core.execStep oph c).2) with
      | none => none
      | some (cf, rf, tr) =>
          some (cf, rf, (Core.execStepRes oph c, (Core.execStep oph c).1.processing_state) :: tr)
    else
      some (c, remaining_cycles, [])

/-- Sum of the cycle counts of the successful iterations of a trace. -/
def traceSum (tr : Trace) : Int :=
  tr.foldr (fun e acc => (match e.1 with | Except.ok n => n | Except.error _ => 0) + acc) 0

/-! Embedding of src/lib.rs -/

def UNINITIALIZED_INTERRUPT : Nat := 0x0F

def SPURIOUS_INTERRUPT : Nat := 0x18

def AUTOVECTOR_BASE : Nat := 0x18

/-- The InterruptController trait: a record of the two operations over a
controller state type.  `acknowledge_interrupt` takes `&mut self`, hence
returns the new controller state with the optional vector. -/
structure InterruptController (σ : Type) where
  highest_priority : σ → Nat
  acknowledge_interrupt : σ → Nat → σ × Option Nat

structure FakeCore (σ : Type) where
  irq_level : Nat
  irq_mask : Nat
  int_ctrl : σ
  interrupt_return_stack : List Nat
  vector : Option Nat
deriving DecidableEq

/-- `return_from_interrupt`: `self.irq_mask = self.interrupt_return_stack.pop().unwrap()`.
The stack is a LIFO; push is modelled as cons, so the most recently
pushed value is the head.  `unwrap` on an empty stack panics: `none`. -/
def FakeCore.return_from_interrupt {σ : Type} (c : FakeCore σ) : Option (FakeCore σ) :=
  match c.interrupt_return_stack with
  | [] => none
  | m :: rest => some { c with irq_mask := m, interrupt_return_stack := rest }

def FakeCore.process_interrupt {σ : Type} (ic : InterruptController σ) (c : FakeCore σ) :
    FakeCore σ :=
  let old_level := c.irq_level
  let new_level := ic.highest_priority c.int_ctrl
  if new_level > c.irq_mask ∨ (old_level ≠ 7 ∧ new_level = 7) then
    let a := ic.acknowledge_interrupt c.int_ctrl new_level
    { c with irq_level := new_level,
             interrupt_return_stack := c.irq_mask :: c.interrupt_return_stack,
             irq_mask := new_level,
             int_ctrl := a.1,
             vector := a.2.or (some SPURIOUS_INTERRUPT) }
  else
    { c with irq_level := new_level, vector := none }

structure Peripheral where
  priority : Nat
  autovectored : Bool
  vector : Option Nat
deriving DecidableEq

/-- The vectored controller; the source's (misspelled) name is kept.
`asserted` is the fixed 7-slot array, slot 0 = priority 7 … slot 6 =
priority 1. -/
structure PeriperhalInterruptController where
  highest_priority : Nat
  asserted : List (Option Peripheral)
deriving DecidableEq

def priority_to_index (priority : Nat) : Nat := 7 - priority

/-- `self.asserted.iter().position(|&x| x.is_some()).map(|i| 7-i).unwrap_or(0)` -/
def recompute_highest (asserted : List (Option Peripheral)) : Nat :=
  match asserted.findIdx? (fun x => x.isSome) with
  | some i => 7 - i
  | none => 0

def PeriperhalInterruptController.update_asserted (pic : PeriperhalInterruptController)
    (index : Nat) (value : Option Peripheral) : PeriperhalInterruptController × Nat :=
  ({ highest_priority := recompute_highest (pic.asserted.set index value),
     asserted := pic.asserted.set index value },
   recompute_highest (pic.asserted.set index value))

def PeriperhalInterruptController.request_interrupt (pic : PeriperhalInterruptController)
    (p : Peripheral) : PeriperhalInterruptController × Nat :=
  pic.update_asserted (priority_to_index p.priority) (some p)

def PeriperhalInterruptController.acknowledge_interrupt (pic : PeriperhalInterruptController)
    (priority : Nat) : PeriperhalInterruptController × Option Nat :=
  match pic.asserted.getD (priority_to_index priority) none with
  | none => (pic, none)
  | some peripheral =>
      ((pic.update_asserted (priority_to_index priority) none).1,
       some (match peripheral.vector with
             | some v => v
             | none => if peripheral.autovectored then AUTOVECTOR_BASE + priority
                       else UNINITIALIZED_INTERRUPT))

/-- Spec-side predicate: the slot for priority `p` is occupied. -/
def slot_occupied (asserted : List (Option Peripheral)) (p : Nat) : Bool :=
  (asserted.getD (7 - p) none).isSome

/-- Spec-side definition (from the spec's words, for comparison with the
cached value of the source): the maximum priority p in [1,7] whose slot
(index 7 − p) is occupied, or 0 when all seven slots are empty. -/
def maxOccupiedPriority (asserted : List (Option Peripheral)) : Nat :=
  ([1, 2, 3, 4, 5, 6, 7].filter (fun p => slot_occupied asserted p)).foldr max 0

/-- One public operation on the vectored controller. -/
inductive PICOp where
  | req (p : Peripheral)
  | ack (priority : Nat)

/-- The priority ranges the source requires (asserted by the Peripheral
constructors for req; index-in-bounds for ack). -/
def validPICOp : PICOp → Prop
  | PICOp.req p => 1 ≤ p.priority ∧ p.priority ≤ 7
  | PICOp.ack priority => 1 ≤ priority ∧ priority ≤ 7

def applyPICOp (pic : PeriperhalInterruptController) : PICOp → PeriperhalInterruptController
  | PICOp.req p => (pic.request_interrupt p).1
  | PICOp.ack priority => (pic.acknowledge_interrupt priority).1

def runPICOps (pic : PeriperhalInterruptController) (ops : List PICOp) :
    PeriperhalInterruptController :=
  ops.foldl applyPICOp pic

/-- The controller as constructed by the driver: nothing asserted. -/
def initPIC : PeriperhalInterruptController :=
  ⟨0, [none, none, none, none, none, none, none]⟩

structure AutoInterruptController where
  level : Nat
deriving DecidableEq

/-- `request_interrupt`: asserts `0 < irq < 8` (panic modelled as none),
then `level |= 1 << (irq - 1)` and returns the new level. -/
def AutoInterruptController.request_interrupt (a : AutoInterruptController) (irq : Nat) :
    Option (AutoInterruptController × Nat) :=
  if 0 < irq ∧ irq < 8 then
    let level := a.level ||| (1 <<< (irq - 1))
    some ({ level := level }, level)
  else none

/-- `u8::leading_zeros` of an 8-bit value: the number of zero bits
above the highest set bit. -/
def leading_zeros_u8 (n : Nat) : Nat :=
  if n.testBit 7 then 0
  else if n.testBit 6 then 1
  else if n.testBit 5 then 2
  else if n.testBit 4 then 3
  else if n.testBit 3 then 4
  else if n.testBit 2 then 5
  else if n.testBit 1 then 6
  else if n.testBit 0 then 7
  else 8

/-- `(8 - self.level.leading_zeros()) as u8` -/
def AutoInterruptController.highest_priority (a : AutoInterruptController) : Nat :=
  8 - leading_zeros_u8 a.level

/-- `level &= !(1 << (priority - 1))`; the u8 complement of the one-bit
mask is its xor with 255.  Always returns `Some(AUTOVECTOR_BASE + priority)`. -/
def AutoInterruptController.acknowledge_interrupt (a : AutoInterruptController)
    (priority : Nat) : AutoInterruptController × Option Nat :=
  ({ level := a.level &&& (255 ^^^ (1 <<< (priority - 1))) },
   some (AUTOVECTOR_BASE + priority))

/-- Spec-side definition (from the spec's words): the highest set bit
index plus 1 of the 8-bit bitmap, or 0 when no bit is set. -/
def highestSetBitPlusOne (n : Nat) : Nat :=
  (List.range 8).foldr (fun i acc => if n.testBit i then max (i + 1) acc else acc) 0

/-- A trivial dispatch table for concrete runs: every handler succeeds
with 5 cycles and leaves the core untouched. -/
def dummy_handlers : InstructionSet := fun _ c => (c, Except.ok 5)

/-- A concrete core in the normal state at pc 0. -/
def demo_core : Core := ⟨0, 0, 0, ProcessingState.Normal⟩

/-- A concrete interrupt controller over state Nat: it reports its state
as the pending level and acknowledges with vector 40 while bumping its
state. -/
def demo_ctrl : InterruptController Nat :=
  ⟨fun s => s, fun s _ => (s + 1, some 40)⟩

/-- A concrete controller that always reports level 7 and acknowledges
with the level-7 autovector, leaving its state unchanged. -/
def demo_ctrl7 : InterruptController Nat :=
  ⟨fun _ => 7, fun s _ => (s, some 0x1F)⟩

/-! Theorems -/

/-- C1, counterexample: at vector 64 the program counter after
`handle_exception` is 0, not 64 × 4 = 256, because the source multiplies
in u8 and the product wraps at 256.  This refutes the claim's "for every
8-bit vector value". -/
theorem c1_counterexample :
    ¬ ((Core.handle_exception ⟨0, 0, 0, ProcessingState.Normal⟩
        ProcessingState.Group1Exception 0 64 10).1.pc = 64 * 4) := by
  decide

/-- C1, amended: after `handle_exception(new_state, pc, vector, cycles)`
the processing state equals `new_state`, the program counter equals
`(vector × 4) mod 256` (the multiplication is performed in u8 and
wraps), and the call returns exactly `cycles`; the program counter
equals `vector × 4` exactly when `vector < 64`. -/
theorem c1_handle_exception (c : Core) (new_state : ProcessingState) (pc : Nat)
    (vector : Nat) (cycles : Int) :
    (c.handle_exception new_state pc vector cycles).1.processing_state = new_state
    ∧ (c.handle_exception new_state pc vector cycles).1.pc = vector * 4 % 256
    ∧ (c.handle_exception new_state pc vector cycles).2 = cycles
    ∧ (vector < 64 → (c.handle_exception new_state pc vector cycles).1.pc = vector * 4) := by
  refine ⟨rfl, rfl, rfl, fun h => ?_⟩
  show vector * 4 % 256 = vector * 4
  omega

/-- C1, witness for the amended claim at vector 3: the new state, the
wrapped pc (3 × 4 = 12 < 256), the returned cycles, and the unwrapped pc. -/
theorem c1_witness :
    (Core.handle_exception ⟨0, 0, 0, ProcessingState.Normal⟩
        ProcessingState.Group1Exception 0 3 50).1.processing_state = ProcessingState.Group1Exception
    ∧ (Core.handle_exception ⟨0, 0, 0, ProcessingState.Normal⟩
        ProcessingState.Group1Exception 0 3 50).1.pc = 3 * 4 % 256
    ∧ (Core.handle_exception ⟨0, 0, 0, ProcessingState.Normal⟩
        ProcessingState.Group1Exception 0 3 50).2 = 50
    ∧ (3 < 64 → (Core.handle_exception ⟨0, 0, 0, ProcessingState.Normal⟩
        ProcessingState.Group1Exception 0 3 50).1.pc = 3 * 4) :=
  c1_handle_exception ⟨0, 0, 0, ProcessingState.Normal⟩
    ProcessingState.Group1Exception 0 3 50

/-- C3: `read_imm_u16` fails exactly when the program counter is odd; on
failure it returns an AddressError carrying the current pc, Read access,
the current processing state and the address space selected by the
supervisor flag, and the core (in particular the pc) is unchanged; on
success it returns the memory word read at the old pc and advances the
pc by exactly 2 (with u32 wraparound). -/
theorem c3_read_imm_u16 (c : Core) :
    (c.pc % 2 = 1 →
      c.read_imm_u16 =
        (Except.error (Exception.AddressError c.pc AccessType.Read c.processing_state
          (if c.s_flag ≠ 0 then SUPERVISOR_PROGRAM else USER_PROGRAM)), c))
    ∧ (c.pc % 2 = 0 →
      c.read_imm_u16 =
        (Except.ok (c.read_word (if c.s_flag ≠ 0 then SUPERVISOR_PROGRAM else USER_PROGRAM) c.pc),
         { c with pc := (c.pc + 2) % 2 ^ 32 })) := by
  constructor
  · intro h
    simp only [Core.read_imm_u16, Nat.and_one_is_mod, h]
    norm_num
  · intro h
    simp only [Core.read_imm_u16, Nat.and_one_is_mod, h]
    norm_num

/-- C3, witness: at the odd pc 3 (user mode, normal state) the fetch
fails with the exact AddressError and leaves the core unchanged; at the
even pc 4 it succeeds with the word at 4 and advances the pc to 6. -/
theorem c3_witness :
    (⟨0, 3, 0, ProcessingState.Normal⟩ : Core).read_imm_u16 =
      (Except.error (Exception.AddressError 3 AccessType.Read ProcessingState.Normal USER_PROGRAM),
       ⟨0, 3, 0, ProcessingState.Normal⟩)
    ∧ (⟨0, 4, 0, ProcessingState.Normal⟩ : Core).read_imm_u16 =
      (Except.ok 4, ⟨0, 6, 0, ProcessingState.Normal⟩) := by
  constructor
  · exact ((c3_read_imm_u16 ⟨0, 3, 0, ProcessingState.Normal⟩).1 rfl).trans rfl
  · exact ((c3_read_imm_u16 ⟨0, 4, 0, ProcessingState.Normal⟩).2 rfl).trans rfl

/-- C10: `return_from_interrupt` panics (pop().unwrap() fails) exactly
when the interrupt-return stack is empty; on a non-empty stack it never
panics, removes the most recently pushed mask value and assigns it to
`irq_mask`. -/
theorem c10_return_from_interrupt {σ : Type} (c : FakeCore σ) :
    (c.interrupt_return_stack = [] → c.return_from_interrupt = none)
    ∧ (∀ m rest, c.interrupt_return_stack = m :: rest →
        c.return_from_interrupt =
          some { c with irq_mask := m, interrupt_return_stack := rest }) := by
  constructor
  · intro h
    simp [FakeCore.return_from_interrupt, h]
  · intro m rest h
    simp [FakeCore.return_from_interrupt, h]

/-- C10, witness: popping a core with stack [5, 2] sets the mask to 5
and leaves [2]; a core with an empty stack panics. -/
theorem c10_witness :
    (FakeCore.return_from_interrupt ⟨0, 7, 0, [], none⟩ = none)
    ∧ (FakeCore.return_from_interrupt ⟨0, 7, 0, [5, 2], none⟩ =
        some (⟨0, 5, 0, [2], none⟩ : FakeCore Nat)) := by
  constructor
  · exact (c10_return_from_interrupt (⟨0, 7, 0, [], none⟩ : FakeCore Nat)).1 rfl
  · exact ((c10_return_from_interrupt (⟨0, 7, 0, [5, 2], none⟩ : FakeCore Nat)).2 5 [2] rfl).trans
      (by decide)

/-- C4: `process_interrupt` samples the new level from the controller
and admits exactly when the new level exceeds the mask or an NMI edge
(previous sampled level ≠ 7 and new level = 7) holds.  On admission it
pushes the old mask onto the return stack, sets the mask to the new
level, and sets the pending vector to the controller's acknowledgement,
or to SPURIOUS_INTERRUPT when the controller returns none.  Otherwise
the pending vector is cleared (and the sampled level still recorded). -/
theorem c4_process_interrupt {σ : Type} (ic : InterruptController σ) (c : FakeCore σ) :
    (ic.highest_priority c.int_ctrl > c.irq_mask
        ∨ (c.irq_level ≠ 7 ∧ ic.highest_priority c.int_ctrl = 7) →
      FakeCore.process_interrupt ic c =
        { irq_level := ic.highest_priority c.int_ctrl,
          irq_mask := ic.highest_priority c.int_ctrl,
          int_ctrl := (ic.acknowledge_interrupt c.int_ctrl (ic.highest_priority c.int_ctrl)).1,
          interrupt_return_stack := c.irq_mask :: c.interrupt_return_stack,
          vector := match (ic.acknowledge_interrupt c.int_ctrl
              (ic.highest_priority c.int_ctrl)).2 with
            | some v => some v
            | none => some SPURIOUS_INTERRUPT })
    ∧ (¬ (ic.highest_priority c.int_ctrl > c.irq_mask
        ∨ (c.irq_level ≠ 7 ∧ ic.highest_priority c.int_ctrl = 7)) →
      FakeCore.process_interrupt ic c =
        { c with irq_level := ic.highest_priority c.int_ctrl, vector := none }) := by
  constructor
  · intro h
    simp only [FakeCore.process_interrupt, if_pos h]
    rcases hv : (ic.acknowledge_interrupt c.int_ctrl (ic.highest_priority c.int_ctrl)).2 with _ | v
    · simp [hv, Option.or]
    · simp [hv, Option.or]
  · intro h
    simp only [FakeCore.process_interrupt, if_neg h]

/-- C4, witness: with demo_ctrl in state 5 and a core at mask 0, level 5
exceeds the mask, so the interrupt is admitted: the old mask 0 is
pushed, the mask becomes 5, and the pending vector is the acknowledged
vector 40. -/
theorem c4_witness :
    FakeCore.process_interrupt demo_ctrl ⟨0, 0, 5, [], none⟩ =
      (⟨5, 5, 6, [0], some 40⟩ : FakeCore Nat) :=
  ((c4_process_interrupt demo_ctrl ⟨0, 0, 5, [], none⟩).1 (Or.inl (by decide))).trans rfl

/-- C5: a sustained level-7 request does not re-enter while already at
mask 7: when the mask is 7, the previously sampled level is 7 and the
controller still reports 7, `process_interrupt` clears the pending
vector and leaves the mask, the return stack and the controller state
unchanged.  Whereas when the previously sampled level is not 7 and the
new level is 7, admission occurs regardless of the mask: the mask
becomes 7, the old mask is pushed, and a pending vector is produced. -/
theorem c5_nmi_edge {σ : Type} (ic : InterruptController σ) (c : FakeCore σ) :
    (c.irq_mask = 7 → c.irq_level = 7 → ic.highest_priority c.int_ctrl = 7 →
      FakeCore.process_interrupt ic c = { c with irq_level := 7, vector := none })
    ∧ (c.irq_level ≠ 7 → ic.highest_priority c.int_ctrl = 7 →
      (FakeCore.process_interrupt ic c).irq_mask = 7
      ∧ (FakeCore.process_interrupt ic c).interrupt_return_stack =
          c.irq_mask :: c.interrupt_return_stack
      ∧ ∃ v, (FakeCore.process_interrupt ic c).vector = some v) := by
  constructor
  · intro hm hl hh
    have hcond : ¬ (ic.highest_priority c.int_ctrl > c.irq_mask
        ∨ (c.irq_level ≠ 7 ∧ ic.highest_priority c.int_ctrl = 7)) := by
      rw [hm, hh]
      simp [hl]
    unfold FakeCore.process_interrupt
    rw [if_neg hcond, hh]
  · intro hl hh
    have hcond : ic.highest_priority c.int_ctrl > c.irq_mask
        ∨ (c.irq_level ≠ 7 ∧ ic.highest_priority c.int_ctrl = 7) := Or.inr ⟨hl, hh⟩
    unfold FakeCore.process_interrupt
    rw [if_pos hcond]
    refine ⟨by simp [hh], by simp, ?_⟩
    rcases h2 : (ic.acknowledge_interrupt c.int_ctrl (ic.highest_priority c.int_ctrl)).2 with _ | v
    · exact ⟨SPURIOUS_INTERRUPT, by simp [h2, Option.or]⟩
    · exact ⟨v, by simp [h2, Option.or]⟩

/-- C5, witness: at mask 7 with previous level 7 and a controller still
reporting 7, nothing is admitted and only the pending vector is
cleared; from previous level 2 the same controller triggers the NMI
edge and is admitted. -/
theorem c5_witness :
    (FakeCore.process_interrupt demo_ctrl7 ⟨7, 7, 0, [3], some 9⟩ =
      (⟨7, 7, 0, [3], none⟩ : FakeCore Nat))
    ∧ ((FakeCore.process_interrupt demo_ctrl7 ⟨2, 7, 0, [3], none⟩).irq_mask = 7
      ∧ (FakeCore.process_interrupt demo_ctrl7 ⟨2, 7, 0, [3], none⟩).interrupt_return_stack =
          7 :: [3]
      ∧ ∃ v, (FakeCore.process_interrupt demo_ctrl7 ⟨2, 7, 0, [3], none⟩).vector = some v) := by
  constructor
  · exact ((c5_nmi_edge demo_ctrl7 ⟨7, 7, 0, [3], some 9⟩).1 rfl rfl rfl).trans rfl
  · exact (c5_nmi_edge demo_ctrl7 ⟨2, 7, 0, [3], none⟩).2 (by decide) rfl

/-- C2: whenever the while loop of `execute` exits (fuel sufficed) with
final core `c1` and remaining budget `remaining`, the call returns
`budget − remaining` if the processing state is running at loop exit,
and `budget − min(remaining, 0)` otherwise: when stopped or halted all
unused cycles are consumed, and a handler's overshoot beyond the budget
is included in the reported total. -/
theorem c2_execute_return (oph : InstructionSet) (fuel : Nat) (c : Core) (budget : Int)
    (c1 : Core) (remaining : Int)
    (h : Core.execLoop oph fuel c budget = some (c1, remaining)) :
    Core.execute oph fuel c budget =
      some (c1, if c1.processing_state.running then budget - remaining
                else budget - min remaining 0) := by
  unfold Core.execute
  rw [h]
  rcases hr : c1.processing_state.running
  · simp only [hr, Bool.false_eq_true, if_false]
    have : (if remaining < 0 then remaining else 0) = min remaining 0 := by
      rcases lt_or_le remaining 0 with h1 | h1
      · rw [if_pos h1, min_eq_left h1.le]
      · rw [if_neg (not_lt.mpr h1), min_eq_right h1]
    rw [this]
  · simp [hr]

/-- C2, witness: with the 5-cycle dummy table and a budget of 5, the
loop exits running with remaining 0 after one instruction, and execute
reports 5 − 0 = 5 consumed cycles. -/
theorem c2_witness :
    Core.execute dummy_handlers 2 demo_core 5 =
      some (⟨0, 2, 0, ProcessingState.Normal⟩, 5) :=
  (c2_execute_return dummy_handlers 2 demo_core 5
    ⟨0, 2, 0, ProcessingState.Normal⟩ 0 rfl).trans rfl

/-- On a 7-slot array, the source's recomputation (priority of the
first occupied slot, or 0) coincides with the spec's formula (maximum
priority with an occupied slot, or 0). -/
theorem recompute_eq_max : ∀ (l : List (Option Peripheral)), l.length = 7 →
    recompute_highest l = maxOccupiedPriority l
  | [o0, o1, o2, o3, o4, o5, o6], _ => by
    rcases o0 with _ | p0 <;> rcases o1 with _ | p1 <;> rcases o2 with _ | p2 <;>
      rcases o3 with _ | p3 <;> rcases o4 with _ | p4 <;> rcases o5 with _ | p5 <;>
      rcases o6 with _ | p6 <;> rfl

/-- `update_asserted` preserves the slot count and establishes the
cached-highest invariant. -/
theorem update_asserted_inv (pic : PeriperhalInterruptController) (index : Nat)
    (value : Option Peripheral) (h : pic.asserted.length = 7) :
    ((pic.update_asserted index value).1).asserted.length = 7
    ∧ ((pic.update_asserted index value).1).highest_priority =
        maxOccupiedPriority ((pic.update_asserted index value).1).asserted := by
  refine ⟨by simp [PeriperhalInterruptController.update_asserted, h], ?_⟩
  have hlen : (pic.asserted.set index value).length = 7 := by simp [h]
  simpa [PeriperhalInterruptController.update_asserted]
    using recompute_eq_max (pic.asserted.set index value) hlen

/-- The cached-highest invariant of the vectored controller. -/
def PICInv (pic : PeriperhalInterruptController) : Prop :=
  pic.asserted.length = 7 ∧ pic.highest_priority = maxOccupiedPriority pic.asserted

theorem applyPICOp_inv (pic : PeriperhalInterruptController) (op : PICOp)
    (h : PICInv pic) : PICInv (applyPICOp pic op) := by
  rcases op with p | priority
  · exact update_asserted_inv pic (priority_to_index p.priority) (some p) h.1
  · show PICInv (pic.acknowledge_interrupt priority).1
    unfold PeriperhalInterruptController.acknowledge_interrupt
    split
    · exact h
    · exact update_asserted_inv pic (priority_to_index priority) none h.1

theorem runPICOps_inv (ops : List PICOp) (pic : PeriperhalInterruptController)
    (h : PICInv pic) : PICInv (runPICOps pic ops) := by
  induction ops generalizing pic with
  | nil => exact h
  | cons op ops ih => exact ih (applyPICOp pic op) (applyPICOp_inv pic op h)

/-- C6: after every sequence of interrupt assertions and
acknowledgements (with priorities in [1,7], as the source asserts),
the cached highest priority of the vectored controller equals the
maximum priority in [1,7] whose slot (index 7 − p) is occupied, or 0
when all seven slots are empty. -/
theorem c6_cached_highest (ops : List PICOp) (hv : ∀ op ∈ ops, validPICOp op) :
    (runPICOps initPIC ops).highest_priority =
      maxOccupiedPriority (runPICOps initPIC ops).asserted :=
  (runPICOps_inv ops initPIC ⟨rfl, rfl⟩).2

/-- C6, witness: after asserting an autovectored priority-3 peripheral,
then a priority-5 one, then acknowledging priority 5, the cached
highest priority equals the maximum occupied priority (namely 3). -/
theorem c6_witness :
    (runPICOps initPIC [PICOp.req ⟨3, true, none⟩, PICOp.req ⟨5, true, none⟩, PICOp.ack 5]).highest_priority =
      maxOccupiedPriority (runPICOps initPIC
        [PICOp.req ⟨3, true, none⟩, PICOp.req ⟨5, true, none⟩, PICOp.ack 5]).asserted := by
  refine c6_cached_highest _ ?_
  intro op hop
  simp only [List.mem_cons, List.not_mem_nil, or_false] at hop
  rcases hop with rfl | rfl | rfl
  · exact ⟨by norm_num, by norm_num⟩
  · exact ⟨by norm_num, by norm_num⟩
  · exact ⟨by norm_num, by norm_num⟩

/-- C7: for priorities in [1,7], `acknowledge_interrupt` returns none
exactly when the slot for that priority is empty (and then changes
nothing); when the slot holds a peripheral it clears the slot,
recomputes the cached highest priority (to the maximum occupied
priority of the remaining slots), and returns the vector determined by
the peripheral's vector policy: the explicit vector when one is set,
AUTOVECTOR_BASE + priority when autovectored, UNINITIALIZED_INTERRUPT
otherwise. -/
theorem c7_acknowledge (pic : PeriperhalInterruptController) (priority : Nat)
    (h1 : 1 ≤ priority) (h7 : priority ≤ 7) (hlen : pic.asserted.length = 7) :
    ((pic.acknowledge_interrupt priority).2 = none ↔
      pic.asserted.getD (priority_to_index priority) none = none)
    ∧ ((pic.acknowledge_interrupt priority).2 = none →
        (pic.acknowledge_interrupt priority).1 = pic)
    ∧ (∀ per, pic.asserted.getD (priority_to_index priority) none = some per →
        pic.acknowledge_interrupt priority =
          ({ highest_priority :=
               maxOccupiedPriority (pic.asserted.set (priority_to_index priority) none),
             asserted := pic.asserted.set (priority_to_index priority) none },
           some (match per.vector with
                 | some v => v
                 | none => if per.autovectored then AUTOVECTOR_BASE + priority
                           else UNINITIALIZED_INTERRUPT))) := by
  have hmax : recompute_highest (pic.asserted.set (priority_to_index priority) none) =
      maxOccupiedPriority (pic.asserted.set (priority_to_index priority) none) :=
    recompute_eq_max _ (by simp [hlen])
  unfold PeriperhalInterruptController.acknowledge_interrupt
  rcases hs : pic.asserted.getD (priority_to_index priority) none with _ | per
  · refine ⟨by simp, fun _ => rfl, ?_⟩
    intro per hper
    exact absurd hper (by simp)
  · refine ⟨by simp, by simp, fun per1 hper1 => ?_⟩
    cases hper1
    simp only [PeriperhalInterruptController.update_asserted]
    rw [hmax]

/-- C7, witness: a controller whose priority-3 slot holds an
autovectored peripheral acknowledges priority 3 with vector
0x18 + 3 = 27, clears the slot and recomputes the cached highest to 0. -/
theorem c7_witness :
    (⟨3, [none, none, none, none, some ⟨3, true, none⟩, none, none]⟩ :
        PeriperhalInterruptController).acknowledge_interrupt 3 =
      (⟨0, [none, none, none, none, none, none, none]⟩, some 27) :=
  (((c7_acknowledge ⟨3, [none, none, none, none, some ⟨3, true, none⟩, none, none]⟩ 3
      (by norm_num) (by norm_num) rfl).2.2 ⟨3, true, none⟩ rfl).trans (by rfl))

/-- Bit effect of an or with a one-bit mask, over all 8-bit values. -/
theorem or_one_bit : ∀ (l : Fin 256) (i : Fin 7) (j : Fin 8),
    (l.val ||| (1 <<< i.val)).testBit j.val =
      (l.val.testBit j.val || decide (j.val = i.val)) := by
  decide

/-- Bit effect of masking out one bit with the u8 complement, over all
8-bit values. -/
theorem and_not_one_bit : ∀ (l : Fin 256) (i : Fin 7) (j : Fin 8),
    (l.val &&& (255 ^^^ (1 <<< i.val))).testBit j.val =
      (l.val.testBit j.val && ! decide (j.val = i.val)) := by
  decide

/-- `8 - leading_zeros` of an 8-bit value is the highest set bit index
plus one (0 when no bit is set). -/
theorem size8_eq_highest : ∀ (l : Fin 256),
    8 - leading_zeros_u8 l.val = highestSetBitPlusOne l.val := by
  decide

/-- C9: over any 8-bit level bitmap and irq/priority in [1,7]:
`request_interrupt(irq)` does not panic and sets exactly bit irq−1 of
the level (returning the new level); `highest_priority()` equals
`8 − leading_zeros(level)`, which equals the highest set bit index plus
1, or 0 when no bit is set; `acknowledge_interrupt(priority)` clears
exactly bit priority−1 and always returns
`Some(AUTOVECTOR_BASE + priority)`.  `j` ranges over the bit positions
of the 8-bit value. -/
theorem c9_auto_controller (a : AutoInterruptController) (irq priority j : Nat)
    (hl : a.level < 256) (hi1 : 1 ≤ irq) (hi7 : irq ≤ 7)
    (hp1 : 1 ≤ priority) (hp7 : priority ≤ 7) (hj : j < 8) :
    ((a.request_interrupt irq).map (fun r => (r.1).level.testBit j)) =
      some (a.level.testBit j || decide (j = irq - 1))
    ∧ a.highest_priority = highestSetBitPlusOne a.level
    ∧ (a.acknowledge_interrupt priority).2 = some (AUTOVECTOR_BASE + priority)
    ∧ ((a.acknowledge_interrupt priority).1.level.testBit j =
        (a.level.testBit j && ! decide (j = priority - 1))) := by
  refine ⟨?_, ?_, rfl, ?_⟩
  · have hif : (0 < irq ∧ irq < 8) := ⟨hi1, by omega⟩
    unfold AutoInterruptController.request_interrupt
    rw [if_pos hif]
    have := or_one_bit ⟨a.level, hl⟩ ⟨irq - 1, by omega⟩ ⟨j, hj⟩
    simpa using this
  · have := size8_eq_highest ⟨a.level, hl⟩
    simpa [AutoInterruptController.highest_priority] using this
  · have := and_not_one_bit ⟨a.level, hl⟩ ⟨priority - 1, by omega⟩ ⟨j, hj⟩
    simpa [AutoInterruptController.acknowledge_interrupt] using this

/-- C9, witness at level 0b101, irq 2, priority 3, bit 1: requesting
irq 2 sets bit 1, the highest priority is 3 (bit 2 set), and
acknowledging priority 3 clears bit 2 and yields vector 0x18 + 3. -/
theorem c9_witness :
    (((⟨5⟩ : AutoInterruptController).request_interrupt 2).map
        (fun r => (r.1).level.testBit 1)) =
      some ((5 : Nat).testBit 1 || decide (1 = 2 - 1))
    ∧ (⟨5⟩ : AutoInterruptController).highest_priority = highestSetBitPlusOne 5
    ∧ ((⟨5⟩ : AutoInterruptController).acknowledge_interrupt 3).2 =
        some (AUTOVECTOR_BASE + 3)
    ∧ (((⟨5⟩ : AutoInterruptController).acknowledge_interrupt 3).1.level.testBit 1 =
        ((5 : Nat).testBit 1 && ! decide (1 = 3 - 1))) :=
  c9_auto_controller ⟨5⟩ 2 3 1 (by norm_num) (by norm_num) (by norm_num)
    (by norm_num) (by norm_num) (by norm_num)

/-- When the fetch-and-dispatch result of an iteration is a success,
the cycles subtracted by that iteration are exactly the handler's
returned cycle count. -/
theorem execStepRes_ok (oph : InstructionSet) (c : Core) (n : Cycles)
    (h : Core.execStepRes oph c = Except.ok n) : (Core.execStep oph c).2 = n := by
  unfold Core.execStepRes at h
  unfold Core.execStep
  rcases hr : c.read_imm_u16 with ⟨res, c1⟩
  rw [hr] at h
  cases res with
  | error err => exact absurd h (by simp)
  | ok opcode =>
    have h2 : (oph opcode { c1 with ir := opcode }).2 = Except.ok n := h
    show (match oph opcode { c1 with ir := opcode } with
          | (c2, Except.ok cycles_used) => (c2, cycles_used)
          | (c2, Except.error err) => c2.handle_err err).2 = n
    rcases hh : oph opcode { c1 with ir := opcode } with ⟨c2, res2⟩
    rw [hh] at h2
    cases res2 with
    | ok used => simpa using h2
    | error err => exact absurd h2 (by simp)

/-- The instrumented loop performs the same run as the plain loop, its
trace sums to the consumed budget when every iteration succeeded, and
the final state is Normal when the start state and every post-step
state were Normal. -/
theorem execLoopT_spec (oph : InstructionSet) : ∀ (fuel : Nat) (c : Core) (r : Cycles)
    (cf : Core) (rf : Cycles) (tr : Trace),
    Core.execLoopT oph fuel c r = some (cf, rf, tr) →
    Core.execLoop oph fuel c r = some (cf, rf)
    ∧ ((∀ e ∈ tr, ∃ n : Cycles, e.1 = Except.ok n) → r - rf = traceSum tr)
    ∧ (c.processing_state = ProcessingState.Normal →
        (∀ e ∈ tr, e.2 = ProcessingState.Normal) →
        cf.processing_state = ProcessingState.Normal) := by
  intro fuel
  induction fuel with
  | zero =>
    intro c r cf rf tr h
    simp [Core.execLoopT] at h
  | succ m ih =>
    intro c r cf rf tr h
    rw [Core.execLoopT] at h
    rw [Core.execLoop]
    by_cases hc : (Cycles.any r && c.processing_state.running) = true
    · rw [if_pos hc] at h
      rw [if_pos hc]
      rcases hrec : Core.execLoopT oph m (Core.execStep oph c).1
          (r - (Core.execStep oph c).2) with _ | ⟨cf1, rf1, tr1⟩
      · rw [hrec] at h
        exact absurd h (by simp)
      · rw [hrec] at h
        simp only [Option.some.injEq, Prod.mk.injEq] at h
        obtain ⟨hcf, hrf, htr⟩ := h
        subst hcf
        subst hrf
        subst htr
        obtain ⟨ih1, ih2, ih3⟩ := ih (Core.execStep oph c).1 (r - (Core.execStep oph c).2)
          cf1 rf1 tr1 hrec
        refine ⟨ih1, ?_, ?_⟩
        · intro hok
          obtain ⟨n0, hn0⟩ := hok (Core.execStepRes oph c,
            (Core.execStep oph c).1.processing_state) (List.mem_cons_self _ _)
          have hres : Core.execStepRes oph c = Except.ok n0 := hn0
          have hstep : (Core.execStep oph c).2 = n0 := execStepRes_ok oph c n0 hres
          have hsum := ih2 (fun e he => hok e (List.mem_cons_of_mem _ he))
          simp only [traceSum, List.foldr_cons] at hsum ⊢
          simp only [hres]
          rw [hstep] at hsum
          rw [← hsum]
          ring
        · intro hN hall
          exact ih3 (hall (Core.execStepRes oph c,
              (Core.execStep oph c).1.processing_state) (List.mem_cons_self _ _))
            (fun e he => hall e (List.mem_cons_of_mem _ he))
    · rw [if_neg hc] at h
      rw [if_neg hc]
      simp only [Option.some.injEq, Prod.mk.injEq] at h
      obtain ⟨hcf, hrf, htr⟩ := h
      subst hcf
      subst hrf
      subst htr
      refine ⟨rfl, ?_, ?_⟩
      · intro _
        simp [traceSum]
      · intro hN _
        exact hN

/-- C8: for every handler table and budget b ≥ 0, if the run recorded
by the instrumented loop raised no exception (every fetch and every
handler succeeded) and the processing state remained Normal throughout,
then `execute(b)` returns exactly the sum of the cycle counts returned
by the handlers that ran during the call. -/
theorem c8_handler_sum (oph : InstructionSet) (fuel : Nat) (c : Core) (b : Cycles)
    (cf : Core) (rf : Cycles) (tr : Trace)
    (hb : 0 ≤ b)
    (hnorm : c.processing_state = ProcessingState.Normal)
    (hT : Core.execLoopT oph fuel c b = some (cf, rf, tr))
    (hok : ∀ e ∈ tr, (∃ n : Cycles, e.1 = Except.ok n) ∧ e.2 = ProcessingState.Normal) :
    Core.execute oph fuel c b = some (cf, traceSum tr) := by
  obtain ⟨hloop, hsum, hstate⟩ := execLoopT_spec oph fuel c b cf rf tr hT
  have hcfN : cf.processing_state = ProcessingState.Normal :=
    hstate hnorm (fun e he => (hok e he).2)
  have hrun : cf.processing_state.running = true := by rw [hcfN]; rfl
  have hs : b - rf = traceSum tr := hsum (fun e he => (hok e he).1)
  unfold Core.execute
  rw [hloop]
  simp only [hrun, if_true]
  rw [hs]

/-- C8, witness: with the 5-cycle dummy table, fuel 3 and budget 7, two
instructions run (5 cycles each), the trace is two successful Normal
steps, and execute reports their sum 10 (the second handler overshot
the budget; the state stayed Normal so the sum is still exact). -/
theorem c8_witness :
    Core.execute dummy_handlers 3 demo_core 7 =
      some (⟨2, 4, 0, ProcessingState.Normal⟩,
        traceSum [(Except.ok 5, ProcessingState.Normal),
                  (Except.ok 5, ProcessingState.Normal)]) := by
  refine c8_handler_sum dummy_handlers 3 demo_core 7
      ⟨2, 4, 0, ProcessingState.Normal⟩ (-3)
      [(Except.ok 5, ProcessingState.Normal), (Except.ok 5, ProcessingState.Normal)]
      (by norm_num) rfl (by rfl) ?_
  intro e he
  simp only [List.mem_cons, List.not_mem_nil, or_false] at he
  rcases he with rfl | rfl
  · exact ⟨⟨5, rfl⟩, rfl⟩
  · exact ⟨⟨5, rfl⟩, rfl⟩

end M68k
